import Mathlib

/-!
Verification of `base-img.py`: a shallow embedding of its data model and
operations, with theorems checking the natural-language specification.

Strings model Python `str` / `pathlib.Path` values; straight-line effectful
functions are embedded as the list of effects they perform; fallible code
returns `Except`.
-/

namespace BaseImg

/-! ## Syscall gateway (`_errcheck`, `bind_mount`) -/

/-- Mount flag `MS_BIND` (module constant `_MS_BIND`). -/
def MS_BIND : Nat := 4096

/-- Mount flag `MS_REC` (module constant `_MS_REC`). -/
def MS_REC : Nat := 16384

/-- The structured error raised by the ctypes errcheck hook: `OSError(e, os.strerror(e))`. -/
structure OSErrorModel where
  code : Int
  message : String
  deriving Repr, DecidableEq

/-- `_errcheck(ret, func, args)`: raise `OSError(e, os.strerror(e))` when the
underlying call returned `-1`, otherwise return `ret` unchanged.  The thread's
errno value and the `os.strerror` table are external inputs, passed as
arguments. -/
def errcheck (strerror : Int → String) (errnoVal : Int) (ret : Int) :
    Except OSErrorModel Int :=
  if ret = -1 then .error ⟨errnoVal, strerror errnoVal⟩ else .ok ret

/-- A mount instruction `(source, target, flags)` as issued through the gateway. -/
structure MountSpec where
  src : String
  dst : String
  flags : Nat
  deriving Repr, DecidableEq

/-- `bind_mount(src, dst)`: a mount with flags `_MS_BIND | _MS_REC`. -/
def bind_mount (src dst : String) : MountSpec :=
  ⟨src, dst, MS_BIND ||| MS_REC⟩

/-! ## Namespace isolator (`new_user_mount_ns`) -/

/-- `os.CLONE_NEWUSER`. -/
def CLONE_NEWUSER : Nat := 268435456

/-- `os.CLONE_NEWNS`. -/
def CLONE_NEWNS : Nat := 131072

/-- One observable step of `new_user_mount_ns`: an `os.unshare` call, or a
write of a string to a control file. -/
inductive NsEvent where
  | unshare (flags : Nat)
  | writeFile (path : String) (content : String)
  deriving Repr, DecidableEq

/-- `new_user_mount_ns()`, embedded as the trace of events it performs, in
program order: one combined unshare, then the uid-map write, the setgroups
"deny" write, and the gid-map write. -/
def new_user_mount_ns (uid gid : Nat) : List NsEvent :=
  [ .unshare (CLONE_NEWUSER ||| CLONE_NEWNS),
    .writeFile ("/proc/self/uid_map") (toString uid ++ " " ++ toString uid ++ " 1\n"),
    .writeFile ("/proc/self/setgroups") ("deny"),
    .writeFile ("/proc/self/gid_map") (toString gid ++ " " ++ toString gid ++ " 1\n") ]

/-- Recognizes an unshare event. -/
def isUnshare : NsEvent → Bool
  | .unshare _ => true
  | _ => false

/-- Recognizes the write of "deny" to the setgroups control file. -/
def isSetgroupsDeny : NsEvent → Bool
  | .writeFile p c => p = "/proc/self/setgroups" && c = "deny"
  | _ => false

/-- Recognizes a write to the gid-map control file. -/
def isGidMapWrite : NsEvent → Bool
  | .writeFile p _ => p = "/proc/self/gid_map"
  | _ => false

/-- Recognizes a write to the uid-map control file. -/
def isUidMapWrite : NsEvent → Bool
  | .writeFile p _ => p = "/proc/self/uid_map"
  | _ => false

/-! ## Filesystem composer (`bind_mount_root_dirs`) -/

/-- What kind of object a directory entry of the host root is:
`p.is_symlink()`, else `p.is_dir()`, else anything else (regular file,
fifo, ...). -/
inductive EntryKind where
  | symlink
  | dir
  | other
  deriving Repr, DecidableEq

/-- One entry of `Path("/").iterdir()`: its basename, its kind, and (when it
is a symlink) its `readlink()` target. -/
structure RootEntry where
  name : String
  kind : EntryKind
  linkTarget : String
  deriving Repr, DecidableEq

/-- An observable action of the composer: creating a symlink, creating a
directory, or issuing a mount. -/
inductive ComposeAction where
  | mkSymlink (linkPath target : String)
  | mkdirAct (path : String)
  | mount (spec : MountSpec)
  deriving Repr, DecidableEq

/-- The loop body of `bind_mount_root_dirs` for one host-root entry `p`:
skip when `str(p) == "/nix"`; replicate symlinks; mkdir and bind-mount
directories; do nothing for anything else. -/
def entry_actions (tmp : String) (p : RootEntry) : List ComposeAction :=
  if "/" ++ p.name = "/nix" then []
  else
    match p.kind with
    | .symlink => [.mkSymlink (tmp ++ "/" ++ p.name) p.linkTarget]
    | .dir => [.mkdirAct (tmp ++ "/" ++ p.name),
               .mount (bind_mount ("/" ++ p.name) (tmp ++ "/" ++ p.name))]
    | .other => []

/-- The mirroring loop of `bind_mount_root_dirs` over the host-root listing. -/
def mirror_actions (tmp : String) (entries : List RootEntry) : List ComposeAction :=
  entries.foldr (fun p acc => entry_actions tmp p ++ acc) []

/-- `bind_mount_root_dirs(base_path, tmp)`: mirror the host root into `tmp`,
then create `tmp/nix` and bind-mount `base_path` onto it.  The host-root
listing is an external input. -/
def bind_mount_root_dirs (basePath tmp : String) (entries : List RootEntry) :
    List ComposeAction :=
  mirror_actions tmp entries ++
    [.mkdirAct (tmp ++ "/nix"), .mount (bind_mount basePath (tmp ++ "/nix"))]

/-- The destination an action creates or mounts at. -/
def ComposeAction.dst : ComposeAction → String
  | .mkSymlink l _ => l
  | .mkdirAct p => p
  | .mount s => s.dst

/-- Recognizes mount actions. -/
def ComposeAction.isMount : ComposeAction → Bool
  | .mount _ => true
  | _ => false

/-! ## Closure-filtered packager (`package_base_image` / `filter_store_paths`) -/

/-- `Path(b).name`: the final path component — trailing slashes are ignored
and the characters after the last remaining slash are kept (entry names
handed to the `copytree` ignore callback are plain basenames, for which
this is the identity). -/
def pathName (s : String) : String :=
  ⟨(((s.data.reverse.dropWhile (fun c => c = '/')).takeWhile
      (fun c => c ≠ '/')).reverse)⟩

/-- `keep_store_paths = set(nix_closure) | set(debug_shell_closure)`, modelled
as a list whose membership is the union of the two memberships. -/
def keep_store_paths (nixClosure debugShellClosure : List String) : List String :=
  nixClosure ++ debugShellClosure

/-- `filter_store_paths(current_dir, entries)`: the `copytree` ignore
callback of `package_base_image`.  Returns the entries to drop: at `/nix`
everything outside `{".base", ".bin", "etc", "var", "store"}`; at any
directory other than `/nix` and `/nix/store`, nothing; at `/nix/store`
every entry whose basename is not in `keep_store_paths`. -/
def filter_store_paths (keep : List String) (current_dir : String)
    (entries : List String) : List String :=
  if current_dir = "/nix" then
    entries.filter (fun p => decide (p ∉ [".base", ".bin", "etc", "var", "store"]))
  else if current_dir ≠ "/nix/store" then []
  else
    entries.filter (fun b => decide (pathName b ∉ keep))

/-- A source directory tree handed to `shutil.copytree`: leaves (regular
files and symlinks, copied verbatim with `symlinks=True`) and directories. -/
inductive FTree where
  | leaf (name : String)
  | dir (name : String) (children : List FTree)

/-- The basename of a tree node. -/
def FTree.name : FTree → String
  | .leaf n => n
  | .dir n _ => n

mutual
/-- `shutil.copytree(src, dst, ignore=ign, symlinks=True)`: per directory,
call the ignore callback once on the listing, then copy each non-ignored
child, recursing into subdirectories with the extended source path. -/
def copyTree (ign : String → List String → List String) (path : String) :
    FTree → FTree
  | .leaf n => .leaf n
  | .dir n children =>
      .dir n (copyChildren ign path (ign path (children.map FTree.name)) children)

/-- Copies the non-ignored children of one directory during `copytree`. -/
def copyChildren (ign : String → List String → List String) (path : String)
    (ignored : List String) : List FTree → List FTree
  | [] => []
  | c :: cs =>
      if c.name ∈ ignored then copyChildren ign path ignored cs
      else copyTree ign (path ++ "/" ++ c.name) c :: copyChildren ign path ignored cs
end

/-- The children names of a tree node (empty for a leaf). -/
def FTree.childNames : FTree → List String
  | .leaf _ => []
  | .dir _ children => children.map FTree.name

/-- The first child with the given name, if any. -/
def FTree.findChild (t : FTree) (n : String) : Option FTree :=
  match t with
  | .leaf _ => none
  | .dir _ children => children.find? (fun c => c.name = n)

/-- The top-level entry names of the "store" subdirectory of a tree (empty
when there is no such subdirectory). -/
def storeSubtreeNames (t : FTree) : List String :=
  ((t.findChild "store").map FTree.childNames).getD []

/-- The copy step of `package_base_image` applied to a source `/nix` tree:
`shutil.copytree("/nix", tmpdir, ignore=filter_store_paths, symlinks=True)`. -/
def package_copy (nixClosure debugShellClosure : List String) (nixTree : FTree) :
    FTree :=
  copyTree (filter_store_paths (keep_store_paths nixClosure debugShellClosure))
    ("/nix") nixTree

/-! ## Python string helpers (`"\n".join`, `str.splitlines`) -/

/-- `sep.join(xs)`. -/
def pyJoin (sep : String) : List String → String
  | [] => ""
  | [x] => x
  | x :: xs => x ++ sep ++ pyJoin sep xs

/-- The characters `str.splitlines()` treats as line boundaries: LF, CR,
vertical tab, form feed, the file/group/record separators, NEL, LINE
SEPARATOR and PARAGRAPH SEPARATOR. -/
def isLineBoundary (c : Char) : Bool :=
  c = '\n' || c = '\r' || c = '\x0b' || c = '\x0c' || c = '\x1c' ||
    c = '\x1d' || c = '\x1e' || c = '\x85' || c = '\u2028' || c = '\u2029'

/-- Prepends a character to the first piece of a split (helper for
`splitLinesChars`). -/
def consHead (c : Char) : List (List Char) → List (List Char)
  | [] => [[c]]
  | p :: ps => (c :: p) :: ps

/-- Tests whether a character list starts with LF (helper for the CRLF case
of `splitLinesChars`). -/
def headIsLf : List Char → Bool
  | [] => false
  | d :: _ => d = '\n'

/-- Splits a character list at every line boundary, with CR immediately
followed by LF counting as a single boundary, keeping empty pieces,
including a trailing empty piece after a final boundary.  A CR directly
before an LF contributes no piece of its own: the LF's split stands for the
whole CRLF boundary. -/
def splitLinesChars : List Char → List (List Char)
  | [] => [[]]
  | c :: cs =>
      if isLineBoundary c then
        if c = '\r' && headIsLf cs then splitLinesChars cs
        else [] :: splitLinesChars cs
      else consHead c (splitLinesChars cs)

/-- `str.splitlines()`: split at every line boundary (LF, CR, CRLF, VT, FF,
FS, GS, RS, NEL, LINE SEPARATOR, PARAGRAPH SEPARATOR) and drop the empty
piece after a trailing boundary; the empty string yields `[]`. -/
def pySplitlines (s : String) : List String :=
  (if (splitLinesChars s.data).getLast? = some [] then
    (splitLinesChars s.data).dropLast
   else splitLinesChars s.data).map fun l => ⟨l⟩

/-! ## Store installer (`install_nix`) -/

/-- `store_path(base_path)`. -/
def store_path (basePath : String) : String := basePath ++ "/store"

/-- `cache_path(base_path)`. -/
def cache_path (basePath : String) : String := basePath ++ "/.cache"

/-- `etc_path(base_path)`. -/
def etc_path (basePath : String) : String := basePath ++ "/etc"

/-- `nix_paths(base_path)`: the store/cache/etc triple. -/
def nix_paths (basePath : String) : List String :=
  [store_path basePath, cache_path basePath, etc_path basePath]

/-- The `NIX_CONF` module constant. -/
def NIX_CONF : String :=
  "experimental-features = nix-command flakes\nsandbox = false\nbuild-users-group =\n"

/-- `download_nix_script()`: the installer script path next to the module. -/
def download_nix_script (fileDir : String) : String :=
  fileDir ++ "/scripts/dl-nix.sh"

/-- The ambient filesystem as the installer observes it: which paths exist,
and what text a file holds. -/
structure FS where
  pathExists : String → Bool
  read : String → String

/-- A structured python-level failure: either an `Exception(msg)` raised by
the code itself, or a `CalledProcessError` from `subprocess.run(...,
check=True)`. -/
inductive PyError where
  | exc (msg : String)
  | calledProcessError (returncode : Nat) (argv : List String)
  deriving Repr, DecidableEq

/-- `subprocess.run(argv, check=check)` on a tool exiting with `exitCode`:
raises `CalledProcessError` exactly when `check` is set and the exit code is
nonzero. -/
def subprocess_run (argv : List String) (check : Bool) (exitCode : Nat) :
    Except PyError Nat :=
  if check ∧ exitCode ≠ 0 then .error (.calledProcessError exitCode argv)
  else .ok exitCode

/-- An observable side effect of the installer. -/
inductive Effect where
  | runProc (argv : List String)
  | mkdirE (path : String)
  | copytreeE (src dst : String)
  | symlinkE (target linkPath : String)
  | writeE (path content : String)
  deriving Repr, DecidableEq

/-- External inputs of one `install_nix` run: the scratch directory, the
download script's exit code, the result of the `glob("**/store")` scan, the
result of the install-script regex search, the `chmod` exit code, and the
basenames `store.iterdir()` yields after the copy. -/
structure InstallEnv where
  tmpdir : String
  dlExit : Nat
  tmpStore : Option String
  nixPathMatch : Option String
  chmodExit : Nat
  storeEntries : List String

/-- The content `install_nix` writes to the cache file:
`"\n".join(closure) + "\n"`. -/
def cacheFileContent (closure : List String) : String :=
  pyJoin "\n" closure ++ "\n"

/-- `install_nix(path)`: returns the closure (or the raised error) together
with the trace of external invocations and filesystem mutations.  If the
store, cache and etc subdirectories all exist the cache file is re-read and
split into lines with no effect; otherwise the installer runs: download,
store scan, install-script parse, copy, `.bin` symlink, `chmod`, config
write (only if absent), auxiliary mkdirs, and the cache write. -/
def install_nix (fileDir : String) (fs : FS) (env : InstallEnv) (path : String) :
    Except PyError (List String) × List Effect :=
  if (nix_paths path).all fs.pathExists then
    (.ok (pySplitlines (fs.read (cache_path path ++ "/base_paths"))), [])
  else
    let dlArgv := [download_nix_script fileDir, env.tmpdir]
    match subprocess_run dlArgv true env.dlExit with
    | .error e => (.error e, [.runProc dlArgv])
    | .ok _ =>
      match env.tmpStore with
      | none =>
          (.error (.exc ("downloaded tarball did not contain any Nix store")),
           [.runProc dlArgv])
      | some tmpStore =>
        match env.nixPathMatch with
        | none =>
            (.error (.exc ("could not detect Nix store path")), [.runProc dlArgv])
        | some nixPath =>
          let store := store_path path
          let chmodArgv :=
            ["chmod", "-R", "a-w"] ++
              env.storeEntries.map (fun n => store ++ "/" ++ n)
          let pre : List Effect :=
            [.runProc dlArgv, .mkdirE path, .copytreeE tmpStore store,
             .symlinkE (nixPath ++ "/bin") (path ++ "/.bin"), .runProc chmodArgv]
          match subprocess_run chmodArgv true env.chmodExit with
          | .error e => (.error e, pre)
          | .ok _ =>
            let etc := etc_path path
            let confEffects : List Effect :=
              if fs.pathExists (etc ++ "/nix.conf") then []
              else [.writeE (etc ++ "/nix.conf") NIX_CONF]
            let closure := env.storeEntries
            (.ok closure,
             pre ++ [.mkdirE etc] ++ confEffects ++
               [.mkdirE (path ++ "/var/nix"), .mkdirE (cache_path path),
                .writeE (cache_path path ++ "/base_paths")
                  (cacheFileContent closure)])

/-! ## Isolated build runner (`build_base`) and packaging (`package_base_image`) -/

/-- `debug_shell_dir()`. -/
def debug_shell_dir (fileDir : String) : String := fileDir ++ "/debug-shell"

/-- External inputs of one `build_base` run: the scratch directory, the two
tool exit codes, the dependency query's stdout, and the `result` symlink's
target. -/
structure BuildEnv where
  tmpdir : String
  buildExit : Nat
  queryExit : Nat
  queryStdout : String
  resultTarget : String

/-- `build_base()`: run `nix build` (check=True), then `nix-store -qR` on the
`result` symlink (check=True), and return the build output path together
with the basenames of the query's stdout lines.  Either nonzero exit raises
before anything later runs. -/
def build_base (fileDir : String) (env : BuildEnv) :
    Except PyError (String × List String) := do
  let _ ← subprocess_run ["nix", "build", debug_shell_dir fileDir] true env.buildExit
  let _ ← subprocess_run ["nix-store", "-qR", env.tmpdir ++ "/result"] true
      env.queryExit
  pure (env.resultTarget, (pySplitlines env.queryStdout).map pathName)

/-- The tar command line of `package_base_image`. -/
def tar_argv (tmpdir : String) : List String :=
  ["tar", "-c", "-f", "base.tar.xz", "-I", "xz -T0", "--directory=" ++ tmpdir, "."]

/-- Replaces any `.base` entry of the copied tree with a fresh `.base`
symlink (the `unlink(missing_ok=True)` / `symlink_to` pair). -/
def base_link_update : FTree → FTree
  | .leaf n => .leaf n
  | .dir n children =>
      .dir n (children.filter (fun c => decide (c.name ≠ ".base")) ++ [.leaf ".base"])

/-- `package_base_image(...)`: copy `/nix` with the closure filter, refresh
the `.base` symlink, then invoke tar WITHOUT `check=True` (the call site
passes only `env=os.environ`), and finish. -/
def package_base_image (nixClosure : List String) (debugShellClosure : List String)
    (nixTree : FTree) (tmpdir : String) (tarExit : Nat) : Except PyError FTree :=
  let copied := package_copy nixClosure debugShellClosure nixTree
  let withBase := base_link_update copied
  match subprocess_run (tar_argv tmpdir) false tarExit with
  | .error e => .error e
  | .ok _ => .ok withBase

/-! ## Helper lemmas -/

theorem string_append_cancel_left {a b c : String} (h : a ++ b = a ++ c) : b = c := by
  have h2 := congrArg String.data h
  simp only [String.data_append] at h2
  exact String.ext (List.append_cancel_left h2)

theorem string_append_assoc (a b c : String) : a ++ b ++ c = a ++ (b ++ c) := by
  apply String.ext
  simp [String.data_append]

/-! ## Claim theorems -/

/-- C7 counterexample: the claim says every negative return raises; but the
gateway checks equality with -1, so a simulated return of -2 (with errno 5)
raises nothing and is passed through, even though -2 is negative. -/
theorem C7_counterexample :
    errcheck (fun _ => "some error") 5 (-2) = .ok (-2) ∧ (-2 : Int) < 0 := by
  constructor
  · rfl
  · decide

/-- C7 amended: the gateway raises a structured error carrying the thread's
errno value and its human-readable string exactly when the underlying mount
call returned -1; any other return value (in particular every non-negative
success return) raises no error and is passed through. -/
theorem C7_amended (strerror : Int → String) (errnoVal ret : Int) :
    (ret = -1 → errcheck strerror errnoVal ret = .error ⟨errnoVal, strerror errnoVal⟩) ∧
    (ret ≠ -1 → errcheck strerror errnoVal ret = .ok ret) := by
  constructor <;> intro h <;> simp [errcheck, h]

/-- Witness for C7 amended at concrete inputs: return -1 with errno 5 raises
the structured error; return 0 raises nothing. -/
theorem C7_witness :
    errcheck (fun e => "strerror of " ++ toString e) 5 (-1) =
      .error ⟨5, "strerror of 5"⟩ ∧
    errcheck (fun e => "strerror of " ++ toString e) 5 0 = .ok 0 :=
  ⟨(C7_amended (fun e => "strerror of " ++ toString e) 5 (-1)).1 rfl,
   (C7_amended (fun e => "strerror of " ++ toString e) 5 0).2 (by decide)⟩

/-- C2 counterexample: the claim says that at the managed top level the
predicate drops the store, binaries-symlink, config and variable-state
entries, and that at any other non-store directory every entry is excluded.
In fact at "/nix" the predicate keeps "store" (drops only entries outside
the keep-set, here ".cache"), and at "/nix/etc" it excludes nothing. -/
theorem C2_counterexample :
    filter_store_paths [] "/nix" [".cache", "store", ".bin", "etc", "var"] = [".cache"] ∧
    filter_store_paths [] "/nix/etc" ["nix.conf"] = [] := by
  constructor <;> rfl

/-- C2 amended: at the top-level managed directory the predicate drops
exactly the entries outside the set containing the build-output symlink,
binaries symlink, config tree, variable-state tree and store (so the cache
subdirectory is dropped but ".base", ".bin", "etc", "var" and "store" are
retained); at any directory other than "/nix" and "/nix/store" it excludes
nothing. -/
theorem C2_amended (keep : List String) (current_dir : String) (entries : List String) :
    (∀ e, e ∈ filter_store_paths keep "/nix" entries ↔
      e ∈ entries ∧ e ∉ [".base", ".bin", "etc", "var", "store"]) ∧
    (current_dir ≠ "/nix" → current_dir ≠ "/nix/store" →
      filter_store_paths keep current_dir entries = []) := by
  constructor
  · intro e
    simp [filter_store_paths, List.mem_filter]
  · intro h1 h2
    simp [filter_store_paths, h1, h2]

/-- Witness for C2 amended: at "/nix" the listing containing ".cache" and
"store" has exactly ".cache" excluded, and at "/nix/etc" nothing is
excluded. -/
theorem C2_witness :
    (".cache" ∈ filter_store_paths [] "/nix" [".cache", "store"] ↔
      ".cache" ∈ [".cache", "store"] ∧
        ".cache" ∉ [".base", ".bin", "etc", "var", "store"]) ∧
    filter_store_paths [] "/nix/etc" ["nix.conf"] = [] :=
  ⟨(C2_amended [] "/nix/etc" [".cache", "store"]).1 ".cache",
   (C2_amended [] "/nix/etc" ["nix.conf"]).2 (by decide) (by decide)⟩

/-- C5: the isolation trace is exactly one atomic unshare creating the user
and mount namespaces together (both flag bits set in that single call,
never two separate calls), then the identity uid-map write, then the "deny"
write to the setgroups control file, then the identity gid-map write; the
index chain makes the mandatory order explicit, so in particular the GID
map is never written before setgroups has been denied. -/
theorem C5_namespace_order (uid gid : Nat) :
    new_user_mount_ns uid gid =
      [ .unshare (CLONE_NEWUSER ||| CLONE_NEWNS),
        .writeFile ("/proc/self/uid_map")
          (toString uid ++ " " ++ toString uid ++ " 1\n"),
        .writeFile ("/proc/self/setgroups") ("deny"),
        .writeFile ("/proc/self/gid_map")
          (toString gid ++ " " ++ toString gid ++ " 1\n") ] ∧
    (∀ f, NsEvent.unshare f ∈ new_user_mount_ns uid gid →
      f &&& CLONE_NEWUSER ≠ 0 ∧ f &&& CLONE_NEWNS ≠ 0) ∧
    ((new_user_mount_ns uid gid).filter isUnshare).length = 1 ∧
    (new_user_mount_ns uid gid).findIdx isUnshare = 0 ∧
    (new_user_mount_ns uid gid).findIdx isUnshare <
      (new_user_mount_ns uid gid).findIdx isUidMapWrite ∧
    (new_user_mount_ns uid gid).findIdx isUidMapWrite <
      (new_user_mount_ns uid gid).findIdx isSetgroupsDeny ∧
    (new_user_mount_ns uid gid).findIdx isSetgroupsDeny <
      (new_user_mount_ns uid gid).findIdx isGidMapWrite := by
  refine ⟨rfl, ?_, ?_, ?_, ?_, ?_, ?_⟩
  · intro f hf
    simp [new_user_mount_ns] at hf
    subst hf
    constructor <;> decide
  · simp [new_user_mount_ns, isUnshare]
  · simp [new_user_mount_ns, List.findIdx, List.findIdx.go, isUnshare]
  · simp [new_user_mount_ns, List.findIdx, List.findIdx.go, isUnshare,
      isUidMapWrite]
  · simp [new_user_mount_ns, List.findIdx, List.findIdx.go, isUidMapWrite,
      isSetgroupsDeny]
  · simp [new_user_mount_ns, List.findIdx, List.findIdx.go, isSetgroupsDeny,
      isGidMapWrite]

/-- Witness for C5 at uid 1000, gid 7: the trace is the unshare followed by
the uid-map, setgroups "deny", and gid-map writes, in that order. -/
theorem C5_witness :
    new_user_mount_ns 1000 7 =
      [ .unshare (CLONE_NEWUSER ||| CLONE_NEWNS),
        .writeFile ("/proc/self/uid_map")
          (toString 1000 ++ " " ++ toString 1000 ++ " 1\n"),
        .writeFile ("/proc/self/setgroups") ("deny"),
        .writeFile ("/proc/self/gid_map")
          (toString 7 ++ " " ++ toString 7 ++ " 1\n") ] ∧
    (∀ f, NsEvent.unshare f ∈ new_user_mount_ns 1000 7 →
      f &&& CLONE_NEWUSER ≠ 0 ∧ f &&& CLONE_NEWNS ≠ 0) ∧
    ((new_user_mount_ns 1000 7).filter isUnshare).length = 1 ∧
    (new_user_mount_ns 1000 7).findIdx isUnshare = 0 ∧
    (new_user_mount_ns 1000 7).findIdx isUnshare <
      (new_user_mount_ns 1000 7).findIdx isUidMapWrite ∧
    (new_user_mount_ns 1000 7).findIdx isUidMapWrite <
      (new_user_mount_ns 1000 7).findIdx isSetgroupsDeny ∧
    (new_user_mount_ns 1000 7).findIdx isSetgroupsDeny <
      (new_user_mount_ns 1000 7).findIdx isGidMapWrite :=
  C5_namespace_order 1000 7

/-- C10: a host-root entry that is neither a symlink nor a directory
contributes no action at all — the composer's output is unchanged if all
such entries are removed from the listing, and the per-entry step yields
nothing for them (they are neither copied, nor mounted, nor an error). -/
theorem C10_other_entries_omitted (basePath tmp : String)
    (entries : List RootEntry) (n lt : String) :
    entry_actions tmp ⟨n, .other, lt⟩ = [] ∧
    bind_mount_root_dirs basePath tmp
        (entries.filter fun e => decide (e.kind ≠ .other)) =
      bind_mount_root_dirs basePath tmp entries := by
  have hother : ∀ (m l : String), entry_actions tmp ⟨m, .other, l⟩ = [] := by
    intro m l
    unfold entry_actions
    split <;> rfl
  refine ⟨hother n lt, ?_⟩
  unfold bind_mount_root_dirs
  congr 1
  unfold mirror_actions
  induction entries with
  | nil => rfl
  | cons e es ih =>
      obtain ⟨nm, kd, l⟩ := e
      cases kd with
      | other =>
          have hdrop :
              List.filter (fun e => decide (e.kind ≠ EntryKind.other))
                  (⟨nm, .other, l⟩ :: es) =
                List.filter (fun e => decide (e.kind ≠ EntryKind.other)) es := by
            simp [List.filter_cons]
          rw [hdrop, ih, List.foldr_cons, hother, List.nil_append]
      | symlink =>
          have hkeep :
              List.filter (fun e => decide (e.kind ≠ EntryKind.other))
                  (⟨nm, .symlink, l⟩ :: es) =
                ⟨nm, .symlink, l⟩ ::
                  List.filter (fun e => decide (e.kind ≠ EntryKind.other)) es := by
            simp [List.filter_cons]
          rw [hkeep, List.foldr_cons, List.foldr_cons, ih]
      | dir =>
          have hkeep :
              List.filter (fun e => decide (e.kind ≠ EntryKind.other))
                  (⟨nm, .dir, l⟩ :: es) =
                ⟨nm, .dir, l⟩ ::
                  List.filter (fun e => decide (e.kind ≠ EntryKind.other)) es := by
            simp [List.filter_cons]
          rw [hkeep, List.foldr_cons, List.foldr_cons, ih]

theorem mem_mirror_actions {tmp : String} {entries : List RootEntry}
    {a : ComposeAction} (h : a ∈ mirror_actions tmp entries) :
    ∃ p, p ∈ entries ∧ a ∈ entry_actions tmp p := by
  induction entries with
  | nil => simp [mirror_actions] at h
  | cons e es ih =>
      unfold mirror_actions at h
      rw [List.foldr_cons, List.mem_append] at h
      rcases h with h | h
      · exact ⟨e, List.mem_cons_self e es, h⟩
      · obtain ⟨p, hp, ha⟩ := ih h
        exact ⟨p, List.mem_cons_of_mem e hp, ha⟩

theorem entry_actions_shape {tmp : String} {p : RootEntry} {a : ComposeAction}
    (h : a ∈ entry_actions tmp p) :
    "/" ++ p.name ≠ "/nix" ∧
    (a = .mkSymlink (tmp ++ "/" ++ p.name) p.linkTarget ∨
     a = .mkdirAct (tmp ++ "/" ++ p.name) ∨
     a = .mount (bind_mount ("/" ++ p.name) (tmp ++ "/" ++ p.name))) := by
  unfold entry_actions at h
  by_cases hn : "/" ++ p.name = "/nix"
  · rw [if_pos hn] at h
    exact absurd h (List.not_mem_nil a)
  · rw [if_neg hn] at h
    refine ⟨hn, ?_⟩
    cases hp : p.kind <;> rw [hp] at h <;> simp_all

theorem tmp_slash_ne (tmp : String) {nm : String} (h : "/" ++ nm ≠ "/nix") :
    tmp ++ "/" ++ nm ≠ tmp ++ "/nix" := by
  intro he
  apply h
  have hx : tmp ++ "/nix" = tmp ++ ("/" ++ "nix") := rfl
  have h2 : tmp ++ ("/" ++ nm) = tmp ++ ("/" ++ "nix") := by
    rw [← string_append_assoc, ← hx]
    exact he
  exact string_append_cancel_left h2

theorem mirror_actions_dst_ne_nix {tmp : String} {entries : List RootEntry}
    {a : ComposeAction} (h : a ∈ mirror_actions tmp entries) :
    a.dst ≠ tmp ++ "/nix" := by
  obtain ⟨p, _, ha⟩ := mem_mirror_actions h
  obtain ⟨hn, hshape⟩ := entry_actions_shape ha
  have hne := tmp_slash_ne tmp hn
  rcases hshape with rfl | rfl | rfl <;>
    simpa [ComposeAction.dst, bind_mount] using hne

/-- C3: the mirroring loop of the composer never creates a bind mount,
directory, or symlink at the staging path reserved for the managed store
mount point; the only mount action at that path in the whole composer run
is the bind mount of the external store path, and it is the very last
action, after the mirroring loop. -/
theorem C3_store_mountpoint_reserved (basePath tmp : String)
    (entries : List RootEntry) :
    (∀ a ∈ mirror_actions tmp entries, a.dst ≠ tmp ++ "/nix") ∧
    (bind_mount_root_dirs basePath tmp entries).filter
        (fun a => a.isMount && decide (a.dst = tmp ++ "/nix")) =
      [.mount (bind_mount basePath (tmp ++ "/nix"))] ∧
    (bind_mount_root_dirs basePath tmp entries).getLast? =
      some (.mount (bind_mount basePath (tmp ++ "/nix"))) := by
  refine ⟨fun a ha => mirror_actions_dst_ne_nix ha, ?_, ?_⟩
  · unfold bind_mount_root_dirs
    rw [List.filter_append]
    have hmirror : (mirror_actions tmp entries).filter
        (fun a => a.isMount && decide (a.dst = tmp ++ "/nix")) = [] := by
      rw [List.filter_eq_nil_iff]
      intro a ha
      have := mirror_actions_dst_ne_nix ha
      simp [this]
    rw [hmirror, List.nil_append]
    simp [ComposeAction.isMount, ComposeAction.dst, bind_mount, List.filter]
  · unfold bind_mount_root_dirs
    have hsplit : mirror_actions tmp entries ++
        [ComposeAction.mkdirAct (tmp ++ "/nix"),
         ComposeAction.mount (bind_mount basePath (tmp ++ "/nix"))] =
        (mirror_actions tmp entries ++ [ComposeAction.mkdirAct (tmp ++ "/nix")]) ++
          [ComposeAction.mount (bind_mount basePath (tmp ++ "/nix"))] := by
      rw [List.append_assoc]
      rfl
    rw [hsplit, List.getLast?_concat]

/-- Witness for C3 with a concrete host-root listing containing directories,
a symlink, and an entry literally named "nix". -/
theorem C3_witness :
    (∀ a ∈ mirror_actions "/t" [⟨"usr", .dir, ""⟩, ⟨"nix", .dir, ""⟩,
        ⟨"lib", .symlink, "usr/lib"⟩], a.dst ≠ "/t" ++ "/nix") ∧
    (bind_mount_root_dirs "/base" "/t" [⟨"usr", .dir, ""⟩, ⟨"nix", .dir, ""⟩,
        ⟨"lib", .symlink, "usr/lib"⟩]).filter
        (fun a => a.isMount && decide (a.dst = "/t" ++ "/nix")) =
      [.mount (bind_mount "/base" ("/t" ++ "/nix"))] ∧
    (bind_mount_root_dirs "/base" "/t" [⟨"usr", .dir, ""⟩, ⟨"nix", .dir, ""⟩,
        ⟨"lib", .symlink, "usr/lib"⟩]).getLast? =
      some (.mount (bind_mount "/base" ("/t" ++ "/nix"))) :=
  C3_store_mountpoint_reserved "/base" "/t"
    [⟨"usr", .dir, ""⟩, ⟨"nix", .dir, ""⟩, ⟨"lib", .symlink, "usr/lib"⟩]

/-- C4 counterexample: the claim says top-level host directories are
bind-mounted without the recursive-bind flag; but mirroring the host
directory "usr" issues a mount whose flags contain `MS_REC` (the single
`bind_mount` helper always sets `MS_BIND | MS_REC`). -/
theorem C4_counterexample :
    ComposeAction.mount (bind_mount "/usr" "/t/usr") ∈
      mirror_actions "/t" [⟨"usr", .dir, ""⟩] ∧
    (bind_mount "/usr" "/t/usr").flags &&& MS_REC ≠ 0 := by
  constructor
  · decide
  · decide

/-- C4 amended: every bind mount the composer issues — those mirroring
top-level host directories as well as the final mount of the managed store
path — carries both the bind flag and the recursive-bind flag; there is no
non-recursive variant. -/
theorem C4_amended (basePath tmp : String) (entries : List RootEntry) :
    ∀ s : MountSpec, ComposeAction.mount s ∈ bind_mount_root_dirs basePath tmp entries →
      s.flags = MS_BIND ||| MS_REC ∧ s.flags &&& MS_REC ≠ 0 ∧
        s.flags &&& MS_BIND ≠ 0 := by
  intro s hs
  have hflags : s.flags = MS_BIND ||| MS_REC := by
    unfold bind_mount_root_dirs at hs
    rw [List.mem_append] at hs
    rcases hs with hs | hs
    · obtain ⟨p, _, ha⟩ := mem_mirror_actions hs
      obtain ⟨_, hshape⟩ := entry_actions_shape ha
      rcases hshape with h | h | h <;> simp_all [bind_mount]
    · simp_all [bind_mount]
  refine ⟨hflags, ?_, ?_⟩ <;> rw [hflags] <;> decide

/-- Witness for C4 amended: the mount mirroring "/usr" and the store mount
both exist in a concrete composer run and carry the recursive flag. -/
theorem C4_witness :
    (bind_mount "/usr" ("/t" ++ "/" ++ "usr")).flags = MS_BIND ||| MS_REC ∧
    (bind_mount "/usr" ("/t" ++ "/" ++ "usr")).flags &&& MS_REC ≠ 0 ∧
    (bind_mount "/usr" ("/t" ++ "/" ++ "usr")).flags &&& MS_BIND ≠ 0 :=
  C4_amended "/base" "/t" [⟨"usr", .dir, ""⟩]
    (bind_mount "/usr" ("/t" ++ "/" ++ "usr")) (by decide)

theorem name_copyTree (f : String → List String → List String) (p : String)
    (t : FTree) : (copyTree f p t).name = t.name := by
  cases t <;> simp [copyTree, FTree.name]

theorem mem_map_name_copyChildren (f : String → List String → List String)
    (p : String) (ign : List String) (cs : List FTree) (x : String) :
    x ∈ (copyChildren f p ign cs).map FTree.name ↔
      (∃ c ∈ cs, c.name = x) ∧ x ∉ ign := by
  induction cs with
  | nil => simp [copyChildren]
  | cons c cs ih =>
      by_cases hc : c.name ∈ ign
      · rw [copyChildren, if_pos hc, ih]
        constructor
        · rintro ⟨⟨c', hc', hcx⟩, hx⟩
          exact ⟨⟨c', List.mem_cons_of_mem _ hc', hcx⟩, hx⟩
        · rintro ⟨⟨c', hc', hcx⟩, hx⟩
          rcases List.mem_cons.mp hc' with rfl | hmem
          · exact absurd (hcx ▸ hc) hx
          · exact ⟨⟨c', hmem, hcx⟩, hx⟩
      · rw [copyChildren, if_neg hc, List.map_cons, List.mem_cons, ih,
          name_copyTree]
        constructor
        · rintro (rfl | ⟨hex, hx⟩)
          · exact ⟨⟨c, List.mem_cons_self c cs, rfl⟩, hc⟩
          · obtain ⟨c', hc', hcx⟩ := hex
            exact ⟨⟨c', List.mem_cons_of_mem _ hc', hcx⟩, hx⟩
        · rintro ⟨⟨c', hc', hcx⟩, hx⟩
          rcases List.mem_cons.mp hc' with rfl | hmem
          · exact Or.inl hcx.symm
          · exact Or.inr ⟨⟨c', hmem, hcx⟩, hx⟩

/-- C1: for every installer closure, build closure, and store listing, the
entry names retained in the packaged output's store subtree are exactly the
store's top-level entries that lie in the union of the two closures; in
particular a store of A, B, C, D with closures of A, B and of B, C keeps
exactly A, B, C and drops D. -/
theorem C1_store_subtree_is_closure_union (A B entries : List String)
    (hbase : ∀ e ∈ entries, pathName e = e) :
    ∀ x, x ∈ storeSubtreeNames
        (package_copy A B (.dir "nix" [.dir "store" (entries.map .leaf)])) ↔
      x ∈ entries ∧ (x ∈ A ∨ x ∈ B) := by
  intro x
  have hstep : storeSubtreeNames
      (package_copy A B (.dir "nix" [.dir "store" (entries.map .leaf)])) =
      (copyChildren (filter_store_paths (keep_store_paths A B)) "/nix/store"
        (((entries.map FTree.leaf).map FTree.name).filter
          (fun b => decide (pathName b ∉ keep_store_paths A B)))
        (entries.map FTree.leaf)).map FTree.name := rfl
  have hmapname : (entries.map FTree.leaf).map FTree.name = entries := by
    have hcomp : FTree.name ∘ FTree.leaf = id := rfl
    rw [List.map_map, hcomp, List.map_id]
  rw [hstep, hmapname, mem_map_name_copyChildren]
  constructor
  · rintro ⟨⟨c, hcmem, hcname⟩, hx⟩
    obtain ⟨a, hamem, rfl⟩ := List.mem_map.mp hcmem
    have hax : a = x := hcname
    subst hax
    refine ⟨hamem, ?_⟩
    by_contra hAB
    push_neg at hAB
    apply hx
    rw [List.mem_filter]
    refine ⟨hamem, ?_⟩
    rw [decide_eq_true_eq, hbase a hamem, keep_store_paths, List.mem_append]
    tauto
  · rintro ⟨hx, hAB⟩
    refine ⟨⟨.leaf x, List.mem_map_of_mem FTree.leaf hx, rfl⟩, ?_⟩
    intro hmem
    rw [List.mem_filter, decide_eq_true_eq, hbase x hx, keep_store_paths,
      List.mem_append] at hmem
    tauto

/-- Witness for C1 at the spec's concrete instance: with closures of A, B and
of B, C over a store of A, B, C, D, entry A is retained and entry D is not. -/
theorem C1_witness :
    ("A" ∈ storeSubtreeNames (package_copy ["A", "B"] ["B", "C"]
        (.dir "nix" [.dir "store" (["A", "B", "C", "D"].map .leaf)])) ↔
      "A" ∈ ["A", "B", "C", "D"] ∧ ("A" ∈ ["A", "B"] ∨ "A" ∈ ["B", "C"])) ∧
    ("D" ∈ storeSubtreeNames (package_copy ["A", "B"] ["B", "C"]
        (.dir "nix" [.dir "store" (["A", "B", "C", "D"].map .leaf)])) ↔
      "D" ∈ ["A", "B", "C", "D"] ∧ ("D" ∈ ["A", "B"] ∨ "D" ∈ ["B", "C"])) :=
  ⟨C1_store_subtree_is_closure_union ["A", "B"] ["B", "C"] ["A", "B", "C", "D"]
      (by decide) "A",
   C1_store_subtree_is_closure_union ["A", "B"] ["B", "C"] ["A", "B", "C", "D"]
      (by decide) "D"⟩

/-- C6: if the store, cache, and config subdirectories all already exist,
`install_nix` returns exactly the lines of the cache file and performs no
effect at all — no external tool invocation and no filesystem mutation. -/
theorem C6_idempotent_fast_path (fileDir : String) (fs : FS) (env : InstallEnv)
    (path : String) (h : (nix_paths path).all fs.pathExists = true) :
    install_nix fileDir fs env path =
      (.ok (pySplitlines (fs.read (cache_path path ++ "/base_paths"))), []) := by
  unfold install_nix
  rw [if_pos h]

/-- Witness for C6: a filesystem where everything exists and the cache file
holds two lines returns those two entries with an empty effect trace. -/
theorem C6_witness :
    (nix_paths "/nix").all (FS.mk (fun _ => true) (fun _ => "abc\ndef\n")).pathExists
      = true ∧
    install_nix "/m" ⟨fun _ => true, fun _ => "abc\ndef\n"⟩
        ⟨"/t", 0, none, none, 0, []⟩ "/nix" = (.ok ["abc", "def"], []) :=
  ⟨rfl, by
    rw [C6_idempotent_fast_path "/m" ⟨fun _ => true, fun _ => "abc\ndef\n"⟩
      ⟨"/t", 0, none, none, 0, []⟩ "/nix" rfl]
    rfl⟩

theorem splitLinesChars_append {x : List Char} (r : List Char)
    (hx : ∀ ch ∈ x, isLineBoundary ch = false) :
    splitLinesChars (x ++ '\n' :: r) = x :: splitLinesChars r := by
  induction x with
  | nil =>
      show splitLinesChars ('\n' :: r) = [] :: splitLinesChars r
      rfl
  | cons c cs ih =>
      have hc : isLineBoundary c = false := hx c (List.mem_cons_self c cs)
      have hrest : ∀ ch ∈ cs, isLineBoundary ch = false :=
        fun ch hch => hx ch (List.mem_cons_of_mem c hch)
      show splitLinesChars (c :: (cs ++ '\n' :: r)) =
        (c :: cs) :: splitLinesChars r
      rw [splitLinesChars, if_neg (by rw [hc]; exact Bool.false_ne_true),
        ih hrest]
      rfl

theorem data_cacheFileContent_single (s : String) :
    (cacheFileContent [s]).data = s.data ++ '\n' :: [] := by
  show ((s ++ "\n") : String).data = s.data ++ '\n' :: []
  rw [String.data_append]

theorem data_cacheFileContent_cons (s t : String) (ts : List String) :
    (cacheFileContent (s :: t :: ts)).data =
      s.data ++ '\n' :: (cacheFileContent (t :: ts)).data := by
  show ((s ++ "\n" ++ pyJoin "\n" (t :: ts)) ++ "\n").data =
    s.data ++ '\n' :: ((pyJoin "\n" (t :: ts) ++ "\n") : String).data
  simp [String.data_append, List.append_assoc]

theorem splitLinesChars_cacheFileContent (c : List String) (hne : c ≠ [])
    (hnl : ∀ s ∈ c, ∀ ch ∈ s.data, isLineBoundary ch = false) :
    splitLinesChars (cacheFileContent c).data = c.map String.data ++ [[]] := by
  induction c with
  | nil => contradiction
  | cons s cs ih =>
      have hs : ∀ ch ∈ s.data, isLineBoundary ch = false :=
        hnl s (List.mem_cons_self s cs)
      cases cs with
      | nil =>
          rw [data_cacheFileContent_single, splitLinesChars_append [] hs]
          rfl
      | cons t ts =>
          rw [data_cacheFileContent_cons, splitLinesChars_append _ hs,
            ih (List.cons_ne_nil t ts)
              (fun u hu => hnl u (List.mem_cons_of_mem s hu))]
          rfl

theorem cache_roundtrip (c : List String) (hne : c ≠ [])
    (hnl : ∀ s ∈ c, ∀ ch ∈ s.data, isLineBoundary ch = false) :
    pySplitlines (cacheFileContent c) = c := by
  unfold pySplitlines
  rw [splitLinesChars_cacheFileContent c hne hnl]
  rw [List.getLast?_concat, if_pos rfl, List.dropLast_concat, List.map_map]
  have hcomp : (fun l => (⟨l⟩ : String)) ∘ String.data = id := by
    funext s
    cases s
    rfl
  rw [hcomp, List.map_id]

/-- C8 counterexample: the claim includes the empty store, but for an empty
closure the fresh run returns the empty list while writing a single bare
newline to the cache file, which a subsequent idempotent run re-reads as a
one-element list holding the empty string — the round trip fails. -/
theorem C8_counterexample :
    (install_nix "/m" ⟨fun _ => false, fun _ => ""⟩
        ⟨"/t", 0, some "/t/x/store", some "/nix/store/abc", 0, []⟩ "/nix").1 =
      .ok [] ∧
    (install_nix "/m" ⟨fun _ => true, fun _ => cacheFileContent []⟩
        ⟨"/t", 0, some "/t/x/store", some "/nix/store/abc", 0, []⟩ "/nix").1 =
      .ok [""] ∧
    ([""] : List String) ≠ [] :=
  ⟨rfl, rfl, by decide⟩

/-- C8 amended: for every nonempty store listing whose entry names contain
no line-boundary character (LF, CR, VT, FF, FS, GS, RS, NEL, LINE or
PARAGRAPH SEPARATOR — the characters splitlines splits on), a fresh
`install_nix` run returns that closure and persists it newline-separated to
the cache file, and a subsequent idempotent run that
re-reads and splits the cache file obtains the same closure — the round
trip holds except for the empty store (where re-reading yields a single
empty-string entry instead). -/
theorem C8_amended (fileDir : String) (fs fs2 : FS) (env : InstallEnv)
    (path : String) (ts np : String)
    (hfresh : (nix_paths path).all fs.pathExists = false)
    (hdl : env.dlExit = 0) (hts : env.tmpStore = some ts)
    (hm : env.nixPathMatch = some np) (hch : env.chmodExit = 0)
    (hne : env.storeEntries ≠ [])
    (hnl : ∀ s ∈ env.storeEntries, ∀ ch ∈ s.data, isLineBoundary ch = false)
    (h2 : (nix_paths path).all fs2.pathExists = true)
    (h2read : fs2.read (cache_path path ++ "/base_paths") =
      cacheFileContent env.storeEntries) :
    (install_nix fileDir fs env path).1 = .ok env.storeEntries ∧
    .writeE (cache_path path ++ "/base_paths") (cacheFileContent env.storeEntries)
      ∈ (install_nix fileDir fs env path).2 ∧
    (install_nix fileDir fs2 env path).1 = .ok env.storeEntries := by
  constructor
  · simp [install_nix, hfresh, hdl, hts, hm, hch, subprocess_run]
  constructor
  · simp [install_nix, hfresh, hdl, hts, hm, hch, subprocess_run]
  · unfold install_nix
    rw [if_pos h2, h2read, cache_roundtrip env.storeEntries hne hnl]

/-- Witness for C8 amended: a fresh install with store entries "abc", "def"
returns them, writes "abc\ndef\n", and the idempotent re-read returns the
same two entries. -/
theorem C8_witness :
    (install_nix "/m" ⟨fun _ => false, fun _ => ""⟩
        ⟨"/t", 0, some "/t/x/store", some "/nix/store/q", 0, ["abc", "def"]⟩
        "/nix").1 = .ok ["abc", "def"] ∧
    .writeE (cache_path "/nix" ++ "/base_paths") (cacheFileContent ["abc", "def"])
      ∈ (install_nix "/m" ⟨fun _ => false, fun _ => ""⟩
        ⟨"/t", 0, some "/t/x/store", some "/nix/store/q", 0, ["abc", "def"]⟩
        "/nix").2 ∧
    (install_nix "/m" ⟨fun _ => true, fun _ => cacheFileContent ["abc", "def"]⟩
        ⟨"/t", 0, some "/t/x/store", some "/nix/store/q", 0, ["abc", "def"]⟩
        "/nix").1 = .ok ["abc", "def"] :=
  C8_amended "/m" ⟨fun _ => false, fun _ => ""⟩
    ⟨fun _ => true, fun _ => cacheFileContent ["abc", "def"]⟩
    ⟨"/t", 0, some "/t/x/store", some "/nix/store/q", 0, ["abc", "def"]⟩
    "/nix" "/t/x/store" "/nix/store/q" rfl rfl rfl rfl rfl (by decide)
    (by decide) rfl rfl

/-- C9 counterexample: the claim says a nonzero exit of the archival tool
raises a fatal error; but the tar invocation is made without check, so
packaging with a tar exit status of 1 still completes and returns the
packaged tree. -/
theorem C9_counterexample :
    package_base_image [] [] (.dir "nix" []) "/t" 1 =
      .ok (.dir "nix" [.leaf ".base"]) ∧ (1 : Nat) ≠ 0 :=
  ⟨rfl, by decide⟩

/-- C9 amended: the installer download, the build tool, and the
dependency-query command are run with check and a nonzero exit raises a
fatal `CalledProcessError` before any later step runs; the
compression/archival (tar) invocation however is run without check, so
packaging completes with no error for every tar exit status. -/
theorem C9_amended :
    (∀ fileDir fs env path, (nix_paths path).all fs.pathExists = false →
      env.dlExit ≠ 0 →
      (install_nix fileDir fs env path).1 =
        .error (.calledProcessError env.dlExit
          [download_nix_script fileDir, env.tmpdir])) ∧
    (∀ fileDir env, env.buildExit ≠ 0 →
      build_base fileDir env =
        .error (.calledProcessError env.buildExit
          ["nix", "build", debug_shell_dir fileDir])) ∧
    (∀ fileDir env, env.buildExit = 0 → env.queryExit ≠ 0 →
      build_base fileDir env =
        .error (.calledProcessError env.queryExit
          ["nix-store", "-qR", env.tmpdir ++ "/result"])) ∧
    (∀ nixC dbgC t tmpdir tarExit, ∃ out,
      package_base_image nixC dbgC t tmpdir tarExit = .ok out) := by
  refine ⟨?_, ?_, ?_, ?_⟩
  · intro fileDir fs env path hfresh hdl
    simp [install_nix, hfresh, subprocess_run, hdl]
  · intro fileDir env hb
    unfold build_base
    simp [subprocess_run, hb, Bind.bind, Except.bind]
  · intro fileDir env hb hq
    unfold build_base
    simp [subprocess_run, hb, hq, Bind.bind, Except.bind]
  · intro nixC dbgC t tmpdir tarExit
    refine ⟨base_link_update (package_copy nixC dbgC t), ?_⟩
    unfold package_base_image
    simp [subprocess_run]

/-- Witness for C9 amended at concrete inputs: download exit 3 aborts the
installer, build exit 4 aborts the build, query exit 5 aborts after a
successful build, and tar exit 7 still lets packaging complete. -/
theorem C9_witness :
    (install_nix "/m" ⟨fun _ => false, fun _ => ""⟩
        ⟨"/t", 3, none, none, 0, []⟩ "/nix").1 =
      .error (.calledProcessError 3 [download_nix_script "/m", "/t"]) ∧
    build_base "/m" ⟨"/t", 4, 0, "", "r"⟩ =
      .error (.calledProcessError 4 ["nix", "build", debug_shell_dir "/m"]) ∧
    build_base "/m" ⟨"/t", 0, 5, "", "r"⟩ =
      .error (.calledProcessError 5 ["nix-store", "-qR", "/t" ++ "/result"]) ∧
    (∃ out, package_base_image [] [] (.dir "nix" []) "/t" 7 = .ok out) :=
  ⟨C9_amended.1 "/m" ⟨fun _ => false, fun _ => ""⟩ ⟨"/t", 3, none, none, 0, []⟩
      "/nix" rfl (by decide),
   C9_amended.2.1 "/m" ⟨"/t", 4, 0, "", "r"⟩ (by decide),
   C9_amended.2.2.1 "/m" ⟨"/t", 0, 5, "", "r"⟩ rfl (by decide),
   C9_amended.2.2.2 [] [] (.dir "nix" []) "/t" 7⟩

end BaseImg
